import Mathlib

/-!
Verification of the buftui navigation core: the reference resolver
(`parseReference` in `src/main.go`), the fetch command layer
(`src/client.go`), and the bubbletea navigation state machine
(`model.Update` in `src/main.go`).

Go strings are embedded as lists of characters, Go's `strings.Cut` and
`strings.Count` as the corresponding list operations, and the bubbletea
update loop as a pure function from a model and a message to a new model
and an optional command.  External collaborators (the protovalidate rule
set, the bubbles list/textinput/viewport widgets, the chroma highlighter)
are modelled minimally: the validator is a parameter, the widgets keep
only the data the state machine reads back (items, cursor, input text).
Go `panic` is a distinguished result constructor.
-/

namespace Buftui

/-! ## Go string primitives -/

/-- A Go string, embedded as its list of characters. -/
abbrev GoStr := List Char

/-- The `/` separator of locator references. -/
def slashChar : Char := '/'

/-- The `:` separator of locator references. -/
def colonChar : Char := ':'

/-- `strings.Cut(s, sep)` for a one-character separator, returning
`some (before, after)` on the first occurrence and `none` when the
separator does not occur (Go's `(s, "", false)` case). -/
def goCut : GoStr → Char → Option (GoStr × GoStr)
  | [], _ => none
  | a :: rest, sep =>
    if a = sep then some ([], rest)
    else (goCut rest sep).map (fun p => (a :: p.1, p.2))

/-! ## The reference resolver (`parseReference`, src/main.go) -/

/-- The parsed form of a locator: `modulev1.ResourceRef_Name` as used by
`parseReference` — an owner, a module, and the optional `Child` ref. -/
structure ResourceRefName where
  owner : GoStr
  module : GoStr
  ref : Option GoStr
deriving DecidableEq

/-- The error cases of `parseReference`, one per distinct `fmt.Errorf`
site: the slash-count check, the colon-count check, and the surfaced
verdict of the external validation rule set. -/
inductive ParseError where
  | badSlashCount
  | multipleColons
  | validationRejected
deriving DecidableEq

/-- The outcome of `parseReference`: `(remote, resourceRef, err)` in Go.
`ok remote none` is the empty-reference case `("", nil, nil)`;
`panicked` is a Go `panic` (the `strings.Cut should be valid after
check` assertions). -/
inductive ParseResult where
  | ok (remote : GoStr) (name : Option ResourceRefName)
  | error (e : ParseError)
  | panicked
deriving DecidableEq

/-- The tail of `parseReference` after the remote (if any) has been
split off: cut `first` on `/` into owner and module, build the
`ResourceRef_Name`, and surface the external validator's verdict.  A
failed cut is the second `panic` site. -/
def parseOwnerModule (validate : ResourceRefName → Bool)
    (remote first : GoStr) (refPart : Option GoStr) : ParseResult :=
  match goCut first slashChar with
  | none => ParseResult.panicked
  | some (owner, module) =>
    if validate { owner := owner, module := module, ref := refPart } then
      ParseResult.ok remote (some { owner := owner, module := module, ref := refPart })
    else ParseResult.error ParseError.validationRejected

/-- The middle of `parseReference`: when the whole input had two `/`,
split the remote off `first`; a failed cut is the first `panic` site. -/
def parseName (validate : ResourceRefName → Bool) (slashCount : Nat)
    (first : GoStr) (refPart : Option GoStr) : ParseResult :=
  if slashCount = 2 then
    match goCut first slashChar with
    | none => ParseResult.panicked
    | some (remote, rest) => parseOwnerModule validate remote rest refPart
  else parseOwnerModule validate [] first refPart

/-- `parseReference` (src/main.go): empty input is "no locator"; the
slash count of the whole input must be 1 or 2 and the colon count at
most 1; the input is cut at the first `:` into `first` and the ref;
then the remote (when two `/`) and owner/module are cut off `first`.
The external protovalidate rule set is the parameter `validate`. -/
def parseReference (validate : ResourceRefName → Bool) (reference : GoStr) :
    ParseResult :=
  if reference = [] then ParseResult.ok [] none
  else if reference.count slashChar ≠ 1 ∧ reference.count slashChar ≠ 2 then
    ParseResult.error ParseError.badSlashCount
  else if 1 < reference.count colonChar then
    ParseResult.error ParseError.multipleColons
  else
    match goCut reference colonChar with
    | none => parseName validate (reference.count slashChar) reference none
    | some (first, refPart) =>
      parseName validate (reference.count slashChar) first (some refPart)

/-- Renders `[remote/]owner/module[:ref]` — the constructive form of the
locator grammar of spec §6, written out in its four shapes. -/
def renderReference (rem : Option GoStr) (owner module : GoStr)
    (ref : Option GoStr) : GoStr :=
  match rem, ref with
  | none, none => owner ++ slashChar :: module
  | none, some f => owner ++ slashChar :: (module ++ colonChar :: f)
  | some r, none => r ++ slashChar :: (owner ++ slashChar :: module)
  | some r, some f => r ++ slashChar :: (owner ++ slashChar :: (module ++ colonChar :: f))

/-- Modelled from the spec: `format` renders `owner/module[:ref]`
(spec §8, round-trip property); this function is not in the source. -/
def formatLocator (name : ResourceRefName) : GoStr :=
  renderReference none name.owner name.module name.ref

/-- A validator that accepts every name (used to instantiate the
external validation rule set at concrete inputs). -/
def acceptAllRefs : ResourceRefName → Bool := fun _ => true

/-- A validator that rejects every name. -/
def rejectAllRefs : ResourceRefName → Bool := fun _ => false

/-! ## Registry data (buf.registry.module.v1, as read by the program) -/

/-- The fields of `modulev1.Module` the program reads. -/
structure ModuleInfo where
  id : GoStr
  name : GoStr
  description : GoStr
deriving DecidableEq

/-- The fields of `modulev1.Commit` the program reads. -/
structure CommitInfo where
  id : GoStr
  createTime : Nat
deriving DecidableEq

/-- The fields of `modulev1.File` the program reads. -/
structure FileInfo where
  path : GoStr
  content : GoStr
deriving DecidableEq

/-- `modulev1.DownloadResponse_Content`: one content bundle. -/
structure Content where
  files : List FileInfo
deriving DecidableEq

/-- The `Value` oneof of `modulev1.Resource`: the three known resource
kinds plus the unrecognized default of the Go type switch. -/
inductive ResourceValue where
  | module (m : ModuleInfo)
  | commit (c : CommitInfo)
  | label (name : GoStr)
  | unknown
deriving DecidableEq

/-! ## Messages and errors -/

/-- Tags the four `fmt.Errorf` transport-failure sites of src/client.go
("listing modules", "getting commits", "getting commit content",
"getting resource"). -/
inductive RpcOpTag where
  | listingModules
  | gettingCommits
  | gettingCommitContent
  | gettingResource
deriving DecidableEq

/-- The payloads that reach `errMsg` (and the quit-on-error sites of
`model.Update`): a transport/remote failure, the two wrong-count
protocol checks of src/client.go, and the unhandled-resource-kind
error of the `resourceMsg` case. -/
inductive GoError where
  | transport (op : RpcOpTag) (detail : GoStr)
  | wrongContentCount (got : Nat)
  | wrongResourceCount (got : Nat)
  | unhandledResourceType
deriving DecidableEq

/-- The messages consumed by `model.Update`: window sizing, the four
fetch-completion messages, `errMsg`, key presses, and the spinner tick.
A key press carries the raw key string, as `tea.KeyMsg.String()` does. -/
inductive Msg where
  | windowSize (width : Int)
  | resource (requestedResource : ResourceRefName) (retrievedResource : ResourceValue)
  | modules (ms : List ModuleInfo)
  | commits (cs : List CommitInfo)
  | contents (c : Content)
  | err (e : GoError)
  | key (raw : GoStr)
  | tick
deriving DecidableEq

/-! ## The fetch command layer (src/client.go) -/

/-- The Go `context.Context` handed to an RPC call: `context.Background()`
carries no deadline; `withDeadline` would carry one. -/
inductive GoContext where
  | background
  | withDeadline (millis : Nat)
deriving DecidableEq

/-- Whether a context carries a bounded deadline. -/
def GoContext.hasDeadline : GoContext → Bool
  | .background => false
  | .withDeadline _ => true

/-- Identifies a fetch issued by the state machine, with its arguments. -/
inductive FetchReq where
  | listModules (owner : GoStr)
  | listCommits (owner module : GoStr)
  | getCommitContent (owner module commitName : GoStr)
  | getResource (name : ResourceRefName)
deriving DecidableEq

/-- A one-shot unit of work of the fetch command layer: the context and
request handed to the transport, and the mapping from the transport's
outcome (an error string, or a typed response) to the message delivered
back into `model.Update`. -/
structure ClientCall (ρ : Type) where
  ctx : GoContext
  req : FetchReq
  onResponse : Except GoStr ρ → Msg

/-- `ListModulesResponse` as read by the program. -/
structure ListModulesResponse where
  modules : List ModuleInfo
deriving DecidableEq

/-- `ListCommitsResponse` as read by the program. -/
structure ListCommitsResponse where
  commits : List CommitInfo
deriving DecidableEq

/-- `DownloadResponse` as read by the program. -/
structure DownloadResponse where
  contents : List Content
deriving DecidableEq

/-- `GetResourcesResponse` as read by the program. -/
structure GetResourcesResponse where
  resources : List ResourceValue
deriving DecidableEq

/-- `client.listModules` (src/client.go): issues `ListModules` for the
owner with `context.Background()`; an error becomes `errMsg`, a response
becomes `modulesMsg`.  (`model.Update` calls it `getModules`.) -/
def clientListModules (currentOwner : GoStr) : ClientCall ListModulesResponse :=
  { ctx := GoContext.background
  , req := FetchReq.listModules currentOwner
  , onResponse := fun r =>
      match r with
      | Except.error e => Msg.err (GoError.transport RpcOpTag.listingModules e)
      | Except.ok response => Msg.modules response.modules }

/-- `client.listCommits` (src/client.go): issues `ListCommits` for
owner/module with `context.Background()`. -/
def clientListCommits (currentOwner currentModule : GoStr) :
    ClientCall ListCommitsResponse :=
  { ctx := GoContext.background
  , req := FetchReq.listCommits currentOwner currentModule
  , onResponse := fun r =>
      match r with
      | Except.error e => Msg.err (GoError.transport RpcOpTag.gettingCommits e)
      | Except.ok response => Msg.commits response.commits }

/-- `client.getCommitContent` (src/client.go): issues `Download` for one
ref with `context.Background()`; a response with other than exactly one
content bundle is the wrong-count protocol error, otherwise the single
bundle becomes `contentsMsg`. -/
def clientGetCommitContent (currentOwner currentModule commitName : GoStr) :
    ClientCall DownloadResponse :=
  { ctx := GoContext.background
  , req := FetchReq.getCommitContent currentOwner currentModule commitName
  , onResponse := fun r =>
      match r with
      | Except.error e => Msg.err (GoError.transport RpcOpTag.gettingCommitContent e)
      | Except.ok response =>
        match response.contents with
        | [c] => Msg.contents c
        | cs => Msg.err (GoError.wrongContentCount cs.length) }

/-- `client.getResource` (src/client.go): issues `GetResources` for one
name with `context.Background()`; exactly one resource is required, and
the success message returns the requested name with the response. -/
def clientGetResource (resourceName : ResourceRefName) :
    ClientCall GetResourcesResponse :=
  { ctx := GoContext.background
  , req := FetchReq.getResource resourceName
  , onResponse := fun r =>
      match r with
      | Except.error e => Msg.err (GoError.transport RpcOpTag.gettingResource e)
      | Except.ok response =>
        match response.resources with
        | [res] => Msg.resource resourceName res
        | rs => Msg.err (GoError.wrongResourceCount rs.length) }

/-! ## The navigation state machine (src/main.go) -/

/-- `modelState` (src/main.go): the browsing, searching and loading
states of the navigator. -/
inductive ModelState where
  | browsingModules
  | browsingCommits
  | browsingCommitContents
  | browsingCommitFileContents
  | searching
  | loadingReference
  | loadingModules
  | loadingCommits
  | loadingCommitFileContents
deriving DecidableEq

/-- A bubbles `list.Model` (external collaborator), modelled as the data
the state machine reads back: the items and the cursor position.
`SelectedItem` is the item under the cursor, `none` past the end. -/
structure ListModel (α : Type) where
  items : List α
  cursor : Nat
deriving DecidableEq

/-- `list.Model.SelectedItem()`: `nil` when the cursor is out of range. -/
def ListModel.selectedItem {α : Type} (l : ListModel α) : Option α :=
  l.items[l.cursor]?

/-- The `model` struct (src/main.go), keeping the state-machine data:
state, error, navigation context (owner/module/commit), the three
resource collections, the startup reference, and the sub-model data the
machine reads back (list items and cursors, search input text, viewport
content, help flags). -/
structure Model where
  state : ModelState
  err : Option GoError
  currentOwner : GoStr
  currentModule : GoStr
  currentCommit : GoStr
  currentModules : List ModuleInfo
  currentCommits : List CommitInfo
  currentCommitFiles : List FileInfo
  currentReference : Option ResourceRefName
  moduleList : ListModel ModuleInfo
  commitList : ListModel CommitInfo
  commitFilesList : ListModel FileInfo
  fileViewportContent : GoStr
  searchInputValue : GoStr
  helpShowAll : Bool
  helpWidth : Int
deriving DecidableEq

/-- The key strings bound to Quit (`keys` in src/main.go). -/
def keysQuit : List GoStr := ["q".toList, "esc".toList, "ctrl+c".toList]

/-- The key strings bound to Help. -/
def keysHelp : List GoStr := ["?".toList]

/-- The key strings bound to Search. -/
def keysSearch : List GoStr := ["s".toList]

/-- The key strings bound to Enter. -/
def keysEnter : List GoStr := ["enter".toList]

/-- The key strings bound to Right ("go in"). -/
def keysRight : List GoStr := ["right".toList, "l".toList]

/-- The key strings bound to Left ("go out"). -/
def keysLeft : List GoStr := ["left".toList, "h".toList]

/-- The bubbles list's own CursorUp binding (external collaborator). -/
def keysListUp : List GoStr := ["up".toList, "k".toList]

/-- The bubbles list's own CursorDown binding (external collaborator). -/
def keysListDown : List GoStr := ["down".toList, "j".toList]

/-- `key.Matches`: does the raw key string belong to the binding? -/
def keyIn (raw : GoStr) (binding : List GoStr) : Bool :=
  binding.any (fun s => s == raw)

/-- A bubbles `textinput.Model` (external collaborator), modelled on its
value only: a single printable character is appended, any other key is
ignored. -/
def textInputUpdate (value : GoStr) (msg : Msg) : GoStr :=
  match msg with
  | Msg.key raw => if raw.length = 1 then value ++ raw else value
  | _ => value

/-- A bubbles list update (external collaborator), modelled on the data
the state machine reads back: its own Up/Down bindings move the cursor,
clamped to the items. -/
def listModelUpdate {α : Type} (l : ListModel α) (msg : Msg) : ListModel α :=
  match msg with
  | Msg.key raw =>
    if keyIn raw keysListUp then { l with cursor := l.cursor - 1 }
    else if keyIn raw keysListDown then
      { l with cursor := min (l.cursor + 1) (l.items.length - 1) }
    else l
  | _ => l

/-- `highlightFile` (src/main.go) runs the external chroma highlighter
over the file contents; modelled as returning the contents (the
presentation is outside the navigation core, and its error path is not
modelled). -/
def highlightFile (filename fileContents : GoStr) : GoStr :=
  fileContents

/-- The lookup loop of `model.Update`: the content of the first file
whose path matches the selected name (empty when none matches). -/
def contentFor (files : List FileInfo) (path : GoStr) : GoStr :=
  match files.find? (fun f => f.path == path) with
  | some f => f.content
  | none => []

/-- The commands `model.Update` returns: `tea.Quit`, a fetch of the
command layer, or the spinner's next tick.  Commands returned by the
external bubbles sub-models are not fetches and are modelled as `none`. -/
inductive UpdateCmd where
  | quit
  | fetch (r : FetchReq)
  | spin
deriving DecidableEq

/-- The outcome of one `model.Update` step: a new model and an optional
command, or a Go `panic` (the list-item type assertions). -/
inductive UpdateResult where
  | ok (m : Model) (cmd : Option UpdateCmd)
  | panicked
deriving DecidableEq

/-- The trailing sub-model switch of `model.Update`, reached by messages
the type/key switches did not return on: the focused sub-model consumes
the message; in `browsingCommitContents` the viewport is refilled with
the highlighted contents of the newly selected file (a missing selected
item is a Go `panic`). -/
def bottomUpdate (m : Model) (msg : Msg) : UpdateResult :=
  match m.state with
  | ModelState.browsingModules =>
    UpdateResult.ok { m with moduleList := listModelUpdate m.moduleList msg } none
  | ModelState.browsingCommits =>
    UpdateResult.ok { m with commitList := listModelUpdate m.commitList msg } none
  | ModelState.browsingCommitContents =>
    match (listModelUpdate m.commitFilesList msg).selectedItem with
    | none => UpdateResult.panicked
    | some cf =>
      UpdateResult.ok
        { m with
          commitFilesList := listModelUpdate m.commitFilesList msg
          fileViewportContent :=
            highlightFile cf.path (contentFor m.currentCommitFiles cf.path) }
        none
  | ModelState.browsingCommitFileContents => UpdateResult.ok m none
  | ModelState.searching =>
    UpdateResult.ok { m with searchInputValue := textInputUpdate m.searchInputValue msg } none
  | _ => UpdateResult.ok m none

/-- The shared Right / Enter-fallthrough branch of the key switch:
select-and-advance.  In `browsingModules` and `browsingCommits` an empty
collection is a no-op; otherwise the selected item fixes the next
context field and the fetch for the next level is issued.  In
`browsingCommitContents` only the focus moves.  Other states fall
through to the trailing sub-model switch. -/
def rightAction (m : Model) (raw : GoStr) : UpdateResult :=
  match m.state with
  | ModelState.browsingModules =>
    if m.currentModules.isEmpty then UpdateResult.ok m none
    else
      match m.moduleList.selectedItem with
      | none => UpdateResult.panicked
      | some mo =>
        UpdateResult.ok
          { m with state := ModelState.loadingCommits, currentModule := mo.name }
          (some (UpdateCmd.fetch (FetchReq.listCommits m.currentOwner mo.name)))
  | ModelState.browsingCommits =>
    if m.currentCommits.isEmpty then UpdateResult.ok m none
    else
      match m.commitList.selectedItem with
      | none => UpdateResult.panicked
      | some c =>
        UpdateResult.ok
          { m with state := ModelState.loadingCommitFileContents, currentCommit := c.id }
          (some (UpdateCmd.fetch
            (FetchReq.getCommitContent m.currentOwner m.currentModule c.id)))
  | ModelState.browsingCommitContents =>
    UpdateResult.ok { m with state := ModelState.browsingCommitFileContents } none
  | _ => bottomUpdate m (Msg.key raw)

/-- `model.Update` (src/main.go): the message type switch, the key
switch inside it, and the trailing sub-model switch, transcribed case by
case.  Fetches appear as `UpdateCmd.fetch` with the arguments the code
passes at each call site. -/
def update (m : Model) (msg : Msg) : UpdateResult :=
  match msg with
  | Msg.windowSize w => bottomUpdate { m with helpWidth := w } msg
  | Msg.resource requested retrieved =>
    match retrieved with
    | ResourceValue.module mo =>
      UpdateResult.ok
        { m with
          currentOwner := requested.owner
          currentModule := mo.name
          state := ModelState.loadingCommits }
        (some (UpdateCmd.fetch (FetchReq.listCommits requested.owner mo.name)))
    | ResourceValue.commit c =>
      UpdateResult.ok
        { m with
          currentOwner := requested.owner
          currentModule := requested.module
          currentCommit := c.id
          state := ModelState.loadingCommitFileContents }
        (some (UpdateCmd.fetch
          (FetchReq.getCommitContent requested.owner requested.module c.id)))
    | ResourceValue.label _ =>
      UpdateResult.ok { m with err := some GoError.unhandledResourceType }
        (some UpdateCmd.quit)
    | ResourceValue.unknown =>
      UpdateResult.ok { m with err := some GoError.unhandledResourceType }
        (some UpdateCmd.quit)
  | Msg.modules ms =>
    if ms.isEmpty then
      UpdateResult.ok
        { m with state := ModelState.browsingModules, currentModules := ms } none
    else
      UpdateResult.ok
        { m with
          state := ModelState.browsingModules
          currentModules := ms
          moduleList := { items := ms, cursor := 0 } }
        none
  | Msg.commits cs =>
    if cs.isEmpty then
      UpdateResult.ok
        { m with state := ModelState.browsingCommits, currentCommits := cs } none
    else
      UpdateResult.ok
        { m with
          state := ModelState.browsingCommits
          currentCommits := cs
          commitList := { items := cs, cursor := 0 } }
        none
  | Msg.contents c =>
    match (ListModel.mk c.files 0 : ListModel FileInfo).selectedItem with
    | none => UpdateResult.panicked
    | some cf =>
      UpdateResult.ok
        { m with
          state := ModelState.browsingCommitContents
          currentCommitFiles := c.files
          commitFilesList := { items := c.files, cursor := 0 }
          fileViewportContent :=
            highlightFile cf.path (contentFor c.files cf.path) }
        none
  | Msg.err e => UpdateResult.ok { m with err := some e } none
  | Msg.key raw =>
    if keyIn raw keysQuit then UpdateResult.ok m (some UpdateCmd.quit)
    else if keyIn raw keysHelp then
      bottomUpdate { m with helpShowAll := !m.helpShowAll } msg
    else if keyIn raw keysSearch then
      if m.state ≠ ModelState.searching then
        UpdateResult.ok
          { m with state := ModelState.searching, searchInputValue := [] } none
      else bottomUpdate m msg
    else if keyIn raw keysEnter then
      match m.state with
      | ModelState.searching =>
        UpdateResult.ok { m with currentOwner := m.searchInputValue }
          (some (UpdateCmd.fetch (FetchReq.listModules m.searchInputValue)))
      | _ => rightAction m raw
    else if keyIn raw keysRight then rightAction m raw
    else if keyIn raw keysLeft then
      match m.state with
      | ModelState.browsingCommitFileContents =>
        UpdateResult.ok { m with state := ModelState.browsingCommitContents } none
      | ModelState.browsingCommitContents =>
        UpdateResult.ok { m with state := ModelState.loadingCommits }
          (some (UpdateCmd.fetch
            (FetchReq.listCommits m.currentOwner m.currentModule)))
      | ModelState.browsingCommits =>
        UpdateResult.ok { m with state := ModelState.loadingModules }
          (some (UpdateCmd.fetch (FetchReq.listModules m.currentOwner)))
      | _ => bottomUpdate m msg
    else bottomUpdate m msg
  | Msg.tick => UpdateResult.ok m (some UpdateCmd.spin)

/-- `model.Init` (src/main.go): the spinner tick, plus `getResource`
when a startup reference was parsed. -/
def modelInit (m : Model) : List UpdateCmd :=
  match m.currentReference with
  | some r => [UpdateCmd.spin, UpdateCmd.fetch (FetchReq.getResource r)]
  | none => [UpdateCmd.spin]

/-! ## Concrete data used by the claim theorems -/

/-- A model with every field at its zero value, in the searching state. -/
def baseModel : Model :=
  { state := ModelState.searching
  , err := none
  , currentOwner := []
  , currentModule := []
  , currentCommit := []
  , currentModules := []
  , currentCommits := []
  , currentCommitFiles := []
  , currentReference := none
  , moduleList := { items := [], cursor := 0 }
  , commitList := { items := [], cursor := 0 }
  , commitFilesList := { items := [], cursor := 0 }
  , fileViewportContent := []
  , searchInputValue := []
  , helpShowAll := false
  , helpWidth := 0 }

/-- A sample commit. -/
def commitA : CommitInfo := { id := "abc".toList, createTime := 0 }

/-- A second sample commit, belonging to another module. -/
def commitB : CommitInfo := { id := "bbb".toList, createTime := 1 }

/-- A sample module. -/
def moduleR : ModuleInfo :=
  { id := "id1".toList, name := "registry".toList, description := [] }

/-- A model browsing the commits of module `o/m`. -/
def errModel : Model :=
  { baseModel with
    state := ModelState.browsingCommits
    currentOwner := "o".toList
    currentModule := "m".toList
    currentCommits := [commitA]
    commitList := { items := [commitA], cursor := 0 } }

/-- A sample transport failure. -/
def bootError : GoError := GoError.transport RpcOpTag.gettingCommits ("boom".toList)

/-- A model whose navigation context is already on module `new` when a
stale `commitsMsg` for another module arrives. -/
def staleModel : Model :=
  { baseModel with
    state := ModelState.browsingCommits
    currentModule := "new".toList
    currentCommits := [commitB]
    commitList := { items := [commitB], cursor := 0 } }

/-- A model in the searching state whose input holds a parsable
locator. -/
def searchModel : Model :=
  { baseModel with
    state := ModelState.searching
    searchInputValue := "bufbuild/registry".toList }

/-- A locator whose owner contains a `/`. -/
def slashOwnerLocator : ResourceRefName :=
  { owner := "a/b".toList, module := "c".toList, ref := none }

/-- A model browsing an empty module collection. -/
def emptyBrowseModel : Model :=
  { baseModel with state := ModelState.browsingModules }

/-- The owner name `o`. -/
def oStr : GoStr := "o".toList

/-- The module name `m`. -/
def mStr : GoStr := "m".toList

/-- The raw key string for the `l` ("go in") key. -/
def lKey : GoStr := "l".toList

/-- The raw key string for the enter key. -/
def enterKey : GoStr := "enter".toList

/-- The reference text `bufbuild/registry`. -/
def refText : GoStr := "bufbuild/registry".toList

/-- The reference text `a/b:c/d` (its second `/` lies after the `:`). -/
def slashAfterColonText : GoStr := "a/b:c/d".toList

/-- The reference text `a/b`. -/
def singleSlashText : GoStr := "a/b".toList

/-- The reference text `a:b:c` (no `/`, two `:`). -/
def doubleColonText : GoStr := "a:b:c".toList

/-- The owner name `bufbuild`. -/
def bufbuildStr : GoStr := "bufbuild".toList

/-- The module name `registry`. -/
def registryStr : GoStr := "registry".toList

/-- The ref `main`. -/
def mainStr : GoStr := "main".toList

/-- The remote `buf.build`. -/
def remoteStr : GoStr := "buf.build".toList

/-- A sample resource name. -/
def rrNameSample : ResourceRefName :=
  { owner := bufbuildStr, module := registryStr, ref := none }

/-- A model browsing a one-module collection. -/
def oneModuleModel : Model :=
  { baseModel with
    state := ModelState.browsingModules
    currentOwner := "bufbuild".toList
    currentModules := [moduleR]
    moduleList := { items := [moduleR], cursor := 0 } }

/-! ## Lemmas about the string primitives and the resolver -/

theorem goCut_of_not_mem {l : GoStr} {sep : Char} (h : sep ∉ l) :
    goCut l sep = none := by
  induction l with
  | nil => rfl
  | cons a rest ih =>
    simp only [List.mem_cons, not_or] at h
    simp [goCut, Ne.symm h.1, ih h.2]

theorem goCut_append {l₁ l₂ : GoStr} {sep : Char} (h : sep ∉ l₁) :
    goCut (l₁ ++ sep :: l₂) sep = some (l₁, l₂) := by
  induction l₁ with
  | nil => simp [goCut]
  | cons a rest ih =>
    simp only [List.mem_cons, not_or] at h
    simp [goCut, Ne.symm h.1, ih h.2]

theorem count_eq_zero_of_not_mem {l : GoStr} {c : Char} (h : c ∉ l) :
    l.count c = 0 :=
  List.count_eq_zero.mpr h

theorem slash_ne_colon : slashChar ≠ colonChar := by decide

theorem colon_ne_slash : colonChar ≠ slashChar := by decide

/-- `parseName` on a pre-colon text of shape `owner/module`. -/
theorem parseName_one (validate : ResourceRefName → Bool)
    (owner module : GoStr) (refPart : Option GoStr)
    (hos : slashChar ∉ owner)
    (hv : validate { owner := owner, module := module, ref := refPart } = true) :
    parseName validate 1 (owner ++ slashChar :: module) refPart =
      ParseResult.ok [] (some { owner := owner, module := module, ref := refPart }) := by
  simp [parseName, parseOwnerModule, goCut_append hos, hv]

/-- `parseName` on a pre-colon text of shape `remote/owner/module`. -/
theorem parseName_two (validate : ResourceRefName → Bool)
    (r owner module : GoStr) (refPart : Option GoStr)
    (hrs : slashChar ∉ r) (hos : slashChar ∉ owner)
    (hv : validate { owner := owner, module := module, ref := refPart } = true) :
    parseName validate 2 (r ++ slashChar :: (owner ++ slashChar :: module)) refPart =
      ParseResult.ok r (some { owner := owner, module := module, ref := refPart }) := by
  simp [parseName, parseOwnerModule, goCut_append hrs, goCut_append hos, hv]

/-- The grammar lemma: on an input assembled as `[remote/]owner/module[:ref]`
from `/`- and `:`-free segments, `parseReference` succeeds, surfacing the
external validator's acceptance, and returns exactly those segments. -/
theorem parse_render (validate : ResourceRefName → Bool)
    (rem : Option GoStr) (owner module : GoStr) (ref : Option GoStr)
    (hos : slashChar ∉ owner) (hoc : colonChar ∉ owner)
    (hms : slashChar ∉ module) (hmc : colonChar ∉ module)
    (hrem : ∀ r ∈ rem, slashChar ∉ r ∧ colonChar ∉ r)
    (href : ∀ f ∈ ref, slashChar ∉ f ∧ colonChar ∉ f)
    (hv : validate { owner := owner, module := module, ref := ref } = true) :
    parseReference validate (renderReference rem owner module ref) =
      ParseResult.ok (rem.getD []) (some { owner := owner, module := module, ref := ref }) := by
  have hoc0 : List.count colonChar owner = 0 := count_eq_zero_of_not_mem hoc
  have hmc0 : List.count colonChar module = 0 := count_eq_zero_of_not_mem hmc
  have hos0 : List.count slashChar owner = 0 := count_eq_zero_of_not_mem hos
  have hms0 : List.count slashChar module = 0 := count_eq_zero_of_not_mem hms
  cases rem with
  | none =>
    cases ref with
    | none =>
      have hcolon : colonChar ∉ owner ++ slashChar :: module := by
        simp [List.mem_append, List.mem_cons, hoc, hmc, colon_ne_slash]
      have hcount : List.count slashChar (owner ++ slashChar :: module) = 1 := by
        simp [List.count_append, List.count_cons, hos0, hms0]
      have hccount : List.count colonChar (owner ++ slashChar :: module) = 0 :=
        count_eq_zero_of_not_mem hcolon
      simp [renderReference, parseReference, hcount, hccount,
        goCut_of_not_mem hcolon, parseName_one validate owner module none hos hv]
    | some f =>
      obtain ⟨hfs, hfc⟩ := href f (by simp)
      have hfs0 : List.count slashChar f = 0 := count_eq_zero_of_not_mem hfs
      have hfc0 : List.count colonChar f = 0 := count_eq_zero_of_not_mem hfc
      have hcolonpre : colonChar ∉ owner ++ slashChar :: module := by
        simp [List.mem_append, List.mem_cons, hoc, hmc, colon_ne_slash]
      have hcount :
          List.count slashChar (owner ++ slashChar :: (module ++ colonChar :: f)) = 1 := by
        simp [List.count_append, List.count_cons, hos0, hms0, hfs0,
          slash_ne_colon, colon_ne_slash]
      have hccount :
          List.count colonChar (owner ++ slashChar :: (module ++ colonChar :: f)) = 1 := by
        simp [List.count_append, List.count_cons, hoc0, hmc0, hfc0,
          slash_ne_colon, colon_ne_slash]
      have hcut :
          goCut (owner ++ slashChar :: (module ++ colonChar :: f)) colonChar =
            some (owner ++ slashChar :: module, f) := by
        have h := @goCut_append (owner ++ slashChar :: module) f colonChar hcolonpre
        simpa [List.append_assoc] using h
      simp [renderReference, parseReference, hcount, hccount, hcut,
        parseName_one validate owner module (some f) hos hv]
  | some r =>
    obtain ⟨hrs, hrc⟩ := hrem r (by simp)
    have hrs0 : List.count slashChar r = 0 := count_eq_zero_of_not_mem hrs
    have hrc0 : List.count colonChar r = 0 := count_eq_zero_of_not_mem hrc
    cases ref with
    | none =>
      have hcolon : colonChar ∉ r ++ slashChar :: (owner ++ slashChar :: module) := by
        simp [List.mem_append, List.mem_cons, hrc, hoc, hmc, colon_ne_slash]
      have hcount :
          List.count slashChar (r ++ slashChar :: (owner ++ slashChar :: module)) = 2 := by
        simp [List.count_append, List.count_cons, hrs0, hos0, hms0]
      have hccount :
          List.count colonChar (r ++ slashChar :: (owner ++ slashChar :: module)) = 0 :=
        count_eq_zero_of_not_mem hcolon
      simp [renderReference, parseReference, hcount, hccount,
        goCut_of_not_mem hcolon, parseName_two validate r owner module none hrs hos hv]
    | some f =>
      obtain ⟨hfs, hfc⟩ := href f (by simp)
      have hfs0 : List.count slashChar f = 0 := count_eq_zero_of_not_mem hfs
      have hfc0 : List.count colonChar f = 0 := count_eq_zero_of_not_mem hfc
      have hpre : colonChar ∉ r ++ slashChar :: (owner ++ slashChar :: module) := by
        simp [List.mem_append, List.mem_cons, hrc, hoc, hmc, colon_ne_slash]
      have hcount :
          List.count slashChar
            (r ++ slashChar :: (owner ++ slashChar :: (module ++ colonChar :: f))) = 2 := by
        simp [List.count_append, List.count_cons, hrs0, hos0, hms0, hfs0,
          slash_ne_colon, colon_ne_slash]
      have hccount :
          List.count colonChar
            (r ++ slashChar :: (owner ++ slashChar :: (module ++ colonChar :: f))) = 1 := by
        simp [List.count_append, List.count_cons, hrc0, hoc0, hmc0, hfc0,
          slash_ne_colon, colon_ne_slash]
      have hcut :
          goCut (r ++ slashChar :: (owner ++ slashChar :: (module ++ colonChar :: f)))
              colonChar =
            some (r ++ slashChar :: (owner ++ slashChar :: module), f) := by
        have h := @goCut_append (r ++ slashChar :: (owner ++ slashChar :: module)) f
          colonChar hpre
        simpa [List.append_assoc] using h
      simp [renderReference, parseReference, hcount, hccount, hcut,
        parseName_two validate r owner module (some f) hrs hos hv]


/-! ## Claim theorems -/

/-- Claim C1 (the code contradicts it): after an `errMsg` is delivered in
`browsingCommits`, the model only records the failure — the state field is
unchanged, no quit is returned — and a subsequent `l` key press still
issues a `getCommitContent` fetch, so the error state is not terminal and
fetches are still issued afterwards. -/
theorem errMsg_not_terminal :
    update errModel (Msg.err bootError) =
      UpdateResult.ok { errModel with err := some bootError } none ∧
    update { errModel with err := some bootError } (Msg.key lKey) =
      UpdateResult.ok
        { errModel with
          err := some bootError
          state := ModelState.loadingCommitFileContents
          currentCommit := commitA.id }
        (some (UpdateCmd.fetch (FetchReq.getCommitContent oStr mStr commitA.id))) := by
  exact ⟨by decide, by decide⟩

/-- Claim C2, counterexample: a stale `commitsMsg` (belonging to a module
the user has already navigated away from — the model's current module is
`new`) carries no originating context and is not discarded: it replaces
`currentCommits` wholesale and rebuilds the commit list. -/
theorem commitsMsg_stale_overwrite_cex :
    update staleModel (Msg.commits [commitA]) =
      UpdateResult.ok
        { staleModel with
          currentCommits := [commitA]
          commitList := { items := [commitA], cursor := 0 } }
        none ∧
    [commitA] ≠ staleModel.currentCommits := by
  exact ⟨by decide, by decide⟩

/-- Claim C2, amended: a `commitsMsg` completion carries no originating
context, and `model.Update` performs no stale-context comparison: for
every model and every delivered commit list, the machine unconditionally
enters `browsingCommits` and replaces `currentCommits` with the delivered
list, leaving the navigation context fields as they were. -/
theorem commitsMsg_replaces_unconditionally (m : Model) (cs : List CommitInfo) :
    ∃ m₂ : Model, update m (Msg.commits cs) = UpdateResult.ok m₂ none ∧
      m₂.currentCommits = cs ∧ m₂.state = ModelState.browsingCommits ∧
      m₂.currentOwner = m.currentOwner ∧ m₂.currentModule = m.currentModule := by
  cases cs with
  | nil => exact ⟨_, rfl, rfl, rfl, rfl, rfl⟩
  | cons a t => exact ⟨_, rfl, rfl, rfl, rfl, rfl⟩

/-- Claim C3, counterexample: `a/b:c/d` has exactly two `/` and one `:`,
so it matches the claim's stated precondition, yet the resolver panics
(its slash count includes the `/` after the `:`, so the pre-`:` cut of
the supposed remote leaves no `/` for owner/module); and on a
grammar-matching input the external validation rule set's rejection is
surfaced as an error, so success is also conditional on validation. -/
theorem parseReference_grammar_cex :
    parseReference acceptAllRefs slashAfterColonText = ParseResult.panicked ∧
    parseReference rejectAllRefs refText =
      ParseResult.error ParseError.validationRejected := by
  exact ⟨by decide, by decide⟩

/-- Claim C3, amended: for every input assembled as
`[remote/]owner/module[:ref]` from segments that contain no `/` and no
`:` (so every `/` of the input lies before the `:`), and whose assembled
name the external validation rule set accepts, the resolver returns,
with no error, exactly those segments, the remote being the first
segment when two `/` are present and the ref populated iff a `:` was
present. -/
theorem parseReference_valid_grammar (validate : ResourceRefName → Bool)
    (rem : Option GoStr) (owner module : GoStr) (ref : Option GoStr)
    (hos : slashChar ∉ owner) (hoc : colonChar ∉ owner)
    (hms : slashChar ∉ module) (hmc : colonChar ∉ module)
    (hrem : ∀ r ∈ rem, slashChar ∉ r ∧ colonChar ∉ r)
    (href : ∀ f ∈ ref, slashChar ∉ f ∧ colonChar ∉ f)
    (hv : validate { owner := owner, module := module, ref := ref } = true) :
    parseReference validate (renderReference rem owner module ref) =
      ParseResult.ok (rem.getD [])
        (some { owner := owner, module := module, ref := ref }) :=
  parse_render validate rem owner module ref hos hoc hms hmc hrem href hv

/-- Claim C3, witness: `buf.build/bufbuild/registry:main`. -/
theorem parseReference_valid_grammar_witness :
    parseReference acceptAllRefs
        (renderReference (some remoteStr) bufbuildStr registryStr (some mainStr)) =
      ParseResult.ok remoteStr
        (some { owner := bufbuildStr, module := registryStr, ref := some mainStr }) :=
  parseReference_valid_grammar acceptAllRefs (some remoteStr) bufbuildStr registryStr
    (some mainStr) (by decide) (by decide) (by decide) (by decide)
    (by
      intro r hr
      simp only [Option.mem_def, Option.some.injEq] at hr
      subst hr
      exact ⟨by decide, by decide⟩)
    (by
      intro f hf
      simp only [Option.mem_def, Option.some.injEq] at hf
      subst hf
      exact ⟨by decide, by decide⟩)
    (by decide)

/-- Claim C4, counterexample: the empty string has zero `/` yet yields no
error (it is the valid "no locator" outcome), and `a/b` has exactly one
`/` yet parses successfully — one `/` is the ordinary owner/module form,
not an error. -/
theorem parseReference_malformed_cex :
    parseReference acceptAllRefs [] = ParseResult.ok [] none ∧
    parseReference acceptAllRefs singleSlashText =
      ParseResult.ok []
        (some { owner := ['a'], module := ['b'], ref := none }) := by
  exact ⟨by decide, by decide⟩

/-- Claim C4, amended: for every non-empty string with zero or more than
two `/`, or with more than one `:`, the resolver returns one of the two
syntax errors (the slash-count error or the colon-count error) and no
locator; the empty string is instead the valid "no locator" outcome and
exactly one `/` is accepted. -/
theorem parseReference_rejects_malformed (validate : ResourceRefName → Bool)
    (s : GoStr) (hne : s ≠ [])
    (hbad : List.count slashChar s = 0 ∨ 2 < List.count slashChar s ∨
      1 < List.count colonChar s) :
    parseReference validate s = ParseResult.error ParseError.badSlashCount ∨
      parseReference validate s = ParseResult.error ParseError.multipleColons := by
  unfold parseReference
  rw [if_neg hne]
  by_cases h1 : List.count slashChar s ≠ 1 ∧ List.count slashChar s ≠ 2
  · rw [if_pos h1]
    exact Or.inl rfl
  · have hc : 1 < List.count colonChar s := by
      rcases hbad with h | h | h
      · exact absurd ⟨by omega, by omega⟩ h1
      · exact absurd ⟨by omega, by omega⟩ h1
      · exact h
    rw [if_neg h1, if_pos hc]
    exact Or.inr rfl

/-- Claim C4, witness: `a:b:c` (zero `/`, two `:`). -/
theorem parseReference_rejects_malformed_witness :
    parseReference acceptAllRefs doubleColonText =
        ParseResult.error ParseError.badSlashCount ∨
      parseReference acceptAllRefs doubleColonText =
        ParseResult.error ParseError.multipleColons :=
  parseReference_rejects_malformed acceptAllRefs doubleColonText (by decide) (by decide)

/-- Claim C5 (the code contradicts it): submitting `bufbuild/registry` —
text the resolver parses successfully as a locator — with Enter in the
searching state never runs the resolver: the machine sets
`currentOwner` to the whole raw text, issues a `listModules` fetch for
it, and stays in the searching state (no `resolveResource`, no loading
state). -/
theorem searching_submit_bypasses_resolver :
    parseReference acceptAllRefs refText =
      ParseResult.ok []
        (some { owner := bufbuildStr, module := registryStr, ref := none }) ∧
    update searchModel (Msg.key enterKey) =
      UpdateResult.ok { searchModel with currentOwner := refText }
        (some (UpdateCmd.fetch (FetchReq.listModules refText))) := by
  exact ⟨by decide, by decide⟩

/-- Claim C6, counterexample: the locator with owner `a/b` and module `c`
(no remote) renders as `a/b/c`, which re-parses as remote `a`, owner
`b`, module `c` — not the original locator. -/
theorem locator_roundTrip_cex :
    parseReference acceptAllRefs (formatLocator slashOwnerLocator) =
      ParseResult.ok ['a']
        (some { owner := ['b'], module := ['c'], ref := none }) ∧
    parseReference acceptAllRefs (formatLocator slashOwnerLocator) ≠
      ParseResult.ok [] (some slashOwnerLocator) := by
  exact ⟨by decide, by decide⟩

/-- Claim C6, amended: for every locator with no remote whose owner and
module contain no `/` and no `:`, whose ref (when present) contains no
`/` and no `:`, and which the external validation rule set accepts,
feeding the rendered `owner/module[:ref]` back into the resolver
returns a locator structurally equal to the original. -/
theorem locator_roundTrip (validate : ResourceRefName → Bool)
    (name : ResourceRefName)
    (hos : slashChar ∉ name.owner) (hoc : colonChar ∉ name.owner)
    (hms : slashChar ∉ name.module) (hmc : colonChar ∉ name.module)
    (href : ∀ f ∈ name.ref, slashChar ∉ f ∧ colonChar ∉ f)
    (hv : validate name = true) :
    parseReference validate (formatLocator name) =
      ParseResult.ok [] (some name) := by
  obtain ⟨o, mo, f⟩ := name
  have h := parse_render validate none o mo f hos hoc hms hmc
    (by intro r hr; simp at hr) href hv
  simpa [formatLocator] using h

/-- Claim C6, witness: the locator `bufbuild/registry:main`. -/
theorem locator_roundTrip_witness :
    parseReference acceptAllRefs
        (formatLocator { owner := bufbuildStr, module := registryStr, ref := some mainStr }) =
      ParseResult.ok []
        (some { owner := bufbuildStr, module := registryStr, ref := some mainStr }) :=
  locator_roundTrip acceptAllRefs
    { owner := bufbuildStr, module := registryStr, ref := some mainStr }
    (by decide) (by decide) (by decide) (by decide)
    (by
      intro f hf
      simp only [Option.mem_def, Option.some.injEq] at hf
      subst hf
      exact ⟨by decide, by decide⟩)
    (by decide)

/-- Claim C7: in `browsingModules`, a select-and-advance key (`l`) with an
empty module collection returns the model unchanged and no command;
with a non-empty collection (whose list has a selected item, as the
machine always builds it) it moves to `loadingCommits`, fixes the
selected module, and issues the `listCommits` fetch. -/
theorem browsingModules_advance (m : Model)
    (hstate : m.state = ModelState.browsingModules) :
    (m.currentModules = [] →
      update m (Msg.key lKey) = UpdateResult.ok m none) ∧
    (∀ mo : ModuleInfo, m.currentModules ≠ [] →
      m.moduleList.selectedItem = some mo →
      update m (Msg.key lKey) =
        UpdateResult.ok
          { m with state := ModelState.loadingCommits, currentModule := mo.name }
          (some (UpdateCmd.fetch (FetchReq.listCommits m.currentOwner mo.name)))) := by
  have hq : keyIn lKey keysQuit = false := by decide
  have hh : keyIn lKey keysHelp = false := by decide
  have hs : keyIn lKey keysSearch = false := by decide
  have he : keyIn lKey keysEnter = false := by decide
  have hr : keyIn lKey keysRight = true := by decide
  constructor
  · intro hempty
    simp [update, hq, hh, hs, he, hr, rightAction, hstate, hempty]
  · intro mo hne hsel
    have hne2 : m.currentModules.isEmpty = false := by
      cases h : m.currentModules with
      | nil => exact absurd h hne
      | cons a t => rfl
    simp [update, hq, hh, hs, he, hr, rightAction, hstate, hne2, hsel]

/-- Claim C7, witness: the empty collection is a no-op; a one-module
collection advances to `loadingCommits` with a `listCommits` fetch. -/
theorem browsingModules_advance_witness :
    update emptyBrowseModel (Msg.key lKey) =
      UpdateResult.ok emptyBrowseModel none ∧
    update oneModuleModel (Msg.key lKey) =
      UpdateResult.ok
        { oneModuleModel with
          state := ModelState.loadingCommits
          currentModule := moduleR.name }
        (some (UpdateCmd.fetch
          (FetchReq.listCommits oneModuleModel.currentOwner moduleR.name))) :=
  ⟨(browsingModules_advance emptyBrowseModel (by decide)).1 (by decide),
   (browsingModules_advance oneModuleModel (by decide)).2 moduleR (by decide) (by decide)⟩

/-- Claim C8: `getCommitContent` maps a response with other than exactly
one content bundle to the wrong-count protocol error — a `GoError`
value distinct from every transport failure — and exactly one bundle to
the `contentsMsg` carrying its files; delivering the protocol error to
`model.Update` records it in the model's error field. -/
theorem downloadContents_protocol (o mo cn : GoStr) (resp : DownloadResponse)
    (m : Model) (opTag : RpcOpTag) (d : GoStr) :
    (resp.contents.length ≠ 1 →
      (clientGetCommitContent o mo cn).onResponse (Except.ok resp) =
        Msg.err (GoError.wrongContentCount resp.contents.length)) ∧
    (∀ c : Content, resp.contents = [c] →
      (clientGetCommitContent o mo cn).onResponse (Except.ok resp) =
        Msg.contents c) ∧
    (GoError.wrongContentCount resp.contents.length ≠
      GoError.transport opTag d) ∧
    (update m (Msg.err (GoError.wrongContentCount resp.contents.length)) =
      UpdateResult.ok
        { m with err := some (GoError.wrongContentCount resp.contents.length) }
        none) := by
  obtain ⟨cs⟩ := resp
  refine ⟨?_, ?_, ?_, rfl⟩
  · intro h
    match cs, h with
    | [], _ => rfl
    | a :: b :: t, _ => rfl
    | [a], h => exact absurd rfl h
  · intro c hc
    subst hc
    rfl
  · intro h
    exact GoError.noConfusion h

/-- Claim C8, witness: a response with zero content bundles. -/
theorem downloadContents_protocol_witness :
    (clientGetCommitContent oStr mStr (commitA.id)).onResponse
        (Except.ok ({ contents := [] } : DownloadResponse)) =
      Msg.err (GoError.wrongContentCount 0) :=
  (downloadContents_protocol oStr mStr (commitA.id) { contents := [] } baseModel
    RpcOpTag.gettingCommitContent []).1 (by decide)

/-- Claim C9, counterexample: the `listModules` fetch passes
`context.Background()` — a context with no deadline — to the transport,
so it does not carry a bounded deadline supplied by the caller. -/
theorem fetch_deadline_cex :
    (clientListModules bufbuildStr).ctx.hasDeadline = false := rfl

/-- Claim C9, amended: every fetch operation of the command layer passes
the background context, which carries no deadline, to the transport; no
deadline is supplied by the caller (a transport error still surfaces as
an `errMsg` failure, but a timeout is not generated by these calls). -/
theorem fetches_background_context (o mo cn : GoStr) (name : ResourceRefName) :
    (clientListModules o).ctx = GoContext.background ∧
    (clientListCommits o mo).ctx = GoContext.background ∧
    (clientGetCommitContent o mo cn).ctx = GoContext.background ∧
    (clientGetResource name).ctx = GoContext.background :=
  ⟨rfl, rfl, rfl, rfl⟩

/-- Claim C10: a successful `getResource` completion returns the requested
name together with the retrieved resource, and `model.Update` sets the
current owner (and, for a commit, the current module) from the carried
request — the result does not depend on the owner/module the model held
when the message arrived. -/
theorem resourceMsg_requested_context (m : Model) (req : ResourceRefName)
    (mo : ModuleInfo) (c : CommitInfo) (name : ResourceRefName)
    (resp : GetResourcesResponse) (res : ResourceValue) :
    (update m (Msg.resource req (ResourceValue.module mo)) =
      UpdateResult.ok
        { m with
          currentOwner := req.owner
          currentModule := mo.name
          state := ModelState.loadingCommits }
        (some (UpdateCmd.fetch (FetchReq.listCommits req.owner mo.name)))) ∧
    (update m (Msg.resource req (ResourceValue.commit c)) =
      UpdateResult.ok
        { m with
          currentOwner := req.owner
          currentModule := req.module
          currentCommit := c.id
          state := ModelState.loadingCommitFileContents }
        (some (UpdateCmd.fetch
          (FetchReq.getCommitContent req.owner req.module c.id)))) ∧
    (resp.resources = [res] →
      (clientGetResource name).onResponse (Except.ok resp) =
        Msg.resource name res) := by
  obtain ⟨rs⟩ := resp
  refine ⟨rfl, rfl, ?_⟩
  intro h
  subst h
  rfl

/-- Claim C10, witness: a module resource retrieved for
`bufbuild/registry`. -/
theorem resourceMsg_requested_context_witness :
    (clientGetResource rrNameSample).onResponse
        (Except.ok ({ resources := [ResourceValue.module moduleR] } :
          GetResourcesResponse)) =
      Msg.resource rrNameSample (ResourceValue.module moduleR) :=
  (resourceMsg_requested_context baseModel rrNameSample moduleR commitA rrNameSample
    { resources := [ResourceValue.module moduleR] }
    (ResourceValue.module moduleR)).2.2 rfl

end Buftui
